import Mathlib

/-!
Verification of the spreadsheet-to-raster renderer core of the
`play-excel-in-js` repository, via a shallow embedding in Lean 4.

Numbers are modelled with `ℚ` (JavaScript numbers, used here only at
exactly representable values), cell indices with `ℕ`.  The process-wide
text-measurement surface is modelled by an abstract measuring function
`measure : String → String → ℚ` (font, text ↦ measured width) passed to
all functions that call `measureTextWidth`.
-/

namespace ExcelCanvas

/-! ## Magic-byte image-type detector (src/unnamed/part_003) -/

/-- A position in a magic-number pattern: a fixed byte, a list of
alternative bytes, or a wildcard (`null` in the source). -/
inductive BytePatternPart where
  | byte (b : ℕ)
  | oneOf (bs : List ℕ)
  | wildcard
deriving DecidableEq

/-- `MAGIC_NUM_PATTERNS`, in source order (png, jpeg, gif, bmp, webp). -/
def magicNumPatterns : List (String × List BytePatternPart) :=
  [ ("png", [.byte 0x89, .byte 0x50, .byte 0x4e, .byte 0x47,
             .byte 0x0d, .byte 0x0a, .byte 0x1a, .byte 0x0a]),
    ("jpeg", [.byte 0xff, .byte 0xd8, .byte 0xff]),
    ("gif", [.byte 0x47, .byte 0x49, .byte 0x46, .byte 0x38,
             .oneOf [0x37, 0x39], .byte 0x61]),
    ("bmp", [.byte 0x42, .byte 0x4d]),
    ("webp", [.byte 0x52, .byte 0x49, .byte 0x46, .byte 0x46,
              .wildcard, .wildcard, .wildcard, .wildcard,
              .byte 0x57, .byte 0x45, .byte 0x42, .byte 0x50]) ]

/-- One pattern position check of `bytesStartWith`: the source returns
`false` when `values.some((value) => bytes[index] !== value)`.
Out-of-range access `bytes[index]` is `undefined`, modelled by `none`,
which differs from every listed byte. -/
def bytePartOk (bytes : List ℕ) (index : ℕ) (values : List ℕ) : Bool :=
  ! values.any (fun value => ! (bytes.get? index = some value))

/-- `bytesStartWith`: the loop over `pattern.entries()`, skipping `null`
parts, wrapping a plain number into a one-element list. -/
def bytesStartWith (bytes : List ℕ) (pattern : List BytePatternPart) : Bool :=
  pattern.enum.all fun ip =>
    match ip.2 with
    | .wildcard => true
    | .byte b => bytePartOk bytes ip.1 [b]
    | .oneOf bs => bytePartOk bytes ip.1 bs

/-- `determineImageType`: first pattern in `IMAGE_TYPES` order that
matches, else `"unknown"`. -/
def determineImageType (bytes : List ℕ) : String :=
  match magicNumPatterns.find? (fun p => bytesStartWith bytes p.2) with
  | some p => p.1
  | none => "unknown"

/-- C4: contrary to the claim, a buffer starting with the GIF signature
(`"GIF87a"` or `"GIF89a"`) is classified as `"unknown"`, not `"gif"`:
at the multi-option pattern position the source tests
`values.some((value) => bytes[index] !== value)`, which is true whenever
the byte differs from at least one of the two options, so the position
can never be satisfied by two distinct options.  Single-byte positions
(png, jpeg, bmp, webp) are unaffected. -/
theorem determineImageType_gif_magic_unknown :
    determineImageType [0x47, 0x49, 0x46, 0x38, 0x39, 0x61] = "unknown" ∧
    determineImageType [0x47, 0x49, 0x46, 0x38, 0x37, 0x61] = "unknown" ∧
    determineImageType [0x47, 0x49, 0x46, 0x38, 0x39, 0x61] ≠ "gif" ∧
    determineImageType [0x89, 0x50, 0x4e, 0x47, 0x0d, 0x0a, 0x1a, 0x0a] = "png" := by
  refine ⟨by decide, by decide, by decide, by decide⟩

/-! ## Cell-reference and range-reference parsing (src/unnamed/part_008) -/

/-- `{col, row}`, both 1-based. -/
structure CellNumbers where
  col : ℕ
  row : ℕ
deriving DecidableEq

/-- A normalised cell range. -/
structure CellRangeNumbers where
  start : CellNumbers
  «end» : CellNumbers
deriving DecidableEq

/-- The character class `[A-Z]` of the reference regexes. -/
def isUpperAZ (c : Char) : Bool := 65 ≤ c.toNat && c.toNat ≤ 90

/-- The character class `[0-9]` of the reference regexes. -/
def isDigit09 (c : Char) : Bool := 48 ≤ c.toNat && c.toNat ≤ 57

/-- `COL_REF_NUM_BASE = "Z" - "A" + 1`. -/
def colRefNumBase : ℕ := 26

/-- `COL_REF_NUM_OFFSET = "A" - 1`. -/
def colRefNumOffset : ℕ := 64

/-- The column-letter fold of `getCellNumbersFromCellRef`:
`acc = acc * 26 + (charCode - 64)`. -/
def colRefNumber (letters : List Char) : ℕ :=
  letters.foldl (fun result c => result * colRefNumBase + (c.toNat - colRefNumOffset)) 0

/-- `Number.parseInt(row, 10)` on an all-digit string. -/
def decimalNumber (digits : List Char) : ℕ :=
  digits.foldl (fun result c => result * 10 + (c.toNat - 48)) 0

/-- `getCellNumbersFromCellRef` against `CELL_REF_REGEX =
^([A-Z]{1,3})([1-9][0-9]*)$`, on the string's character list. -/
def getCellNumbersFromCellRefCore (cs : List Char) : Option CellNumbers :=
  if 1 ≤ (cs.takeWhile isUpperAZ).length ∧ (cs.takeWhile isUpperAZ).length ≤ 3 ∧
      cs.dropWhile isUpperAZ ≠ [] ∧ (cs.dropWhile isUpperAZ).all isDigit09 ∧
      (cs.dropWhile isUpperAZ).headD '0' ≠ '0' then
    some ⟨colRefNumber (cs.takeWhile isUpperAZ), decimalNumber (cs.dropWhile isUpperAZ)⟩
  else
    none

/-- `getCellNumbersFromCellRef`. -/
def getCellNumbersFromCellRef (cellRef : String) : Option CellNumbers :=
  getCellNumbersFromCellRefCore cellRef.data

/-- JavaScript `String.prototype.split` on a single separator character
(`"" → [""]`, separators at the ends produce empty pieces). -/
def splitOnChar (sep : Char) : List Char → List (List Char)
  | [] => [[]]
  | c :: rest =>
    if c = sep then
      [] :: splitOnChar sep rest
    else
      match splitOnChar sep rest with
      | [] => [[c]]
      | l :: ls => (c :: l) :: ls

/-- `getCellRangeNumbersFromCellRangeRef` against `CELL_RANGE_REF_REGEX =
^(A1form)(?::(A1form))?$`: at most one `:` separating two full cell
references; absent end means `start = end`; otherwise componentwise
min/max normalisation. -/
def getCellRangeNumbersFromCellRangeRefCore (cs : List Char) : Option CellRangeNumbers :=
  match splitOnChar ':' cs with
  | [startCs] =>
    (getCellNumbersFromCellRefCore startCs).map fun startNumbers =>
      ⟨startNumbers, startNumbers⟩
  | [startCs, endCs] =>
    match getCellNumbersFromCellRefCore startCs, getCellNumbersFromCellRefCore endCs with
    | some startNumbers, some endNumbers =>
      some ⟨⟨min startNumbers.col endNumbers.col, min startNumbers.row endNumbers.row⟩,
            ⟨max startNumbers.col endNumbers.col, max startNumbers.row endNumbers.row⟩⟩
    | _, _ => none
  | _ => none

/-- `getCellRangeNumbersFromCellRangeRef`. -/
def getCellRangeNumbersFromCellRangeRef (cellRangeRef : String) : Option CellRangeNumbers :=
  getCellRangeNumbersFromCellRangeRefCore cellRangeRef.data

/-! ### Spec-side textual forms (the code has no number-to-letter
function; these are used only to state round-trip properties) -/

/-- Modelled from the spec: the uppercase letter with 1-based alphabet
position `n` (spec §8 property 2 references the number→letter
direction, which the code does not implement). -/
def natLetterChar : ℕ → Char
  | 1 => 'A' | 2 => 'B' | 3 => 'C' | 4 => 'D' | 5 => 'E' | 6 => 'F' | 7 => 'G'
  | 8 => 'H' | 9 => 'I' | 10 => 'J' | 11 => 'K' | 12 => 'L' | 13 => 'M'
  | 14 => 'N' | 15 => 'O' | 16 => 'P' | 17 => 'Q' | 18 => 'R' | 19 => 'S'
  | 20 => 'T' | 21 => 'U' | 22 => 'V' | 23 => 'W' | 24 => 'X' | 25 => 'Y'
  | 26 => 'Z' | _ => 'A'

/-- Modelled from the spec: bijective base-26 column letters of a
1-based column number in `A..ZZZ` (columns `1..18278`). -/
def colLettersOfNumber (n : ℕ) : List Char :=
  if n ≤ 26 then
    [natLetterChar n]
  else if n ≤ 702 then
    [natLetterChar ((n - 27) / 26 + 1), natLetterChar ((n - 27) % 26 + 1)]
  else
    [natLetterChar ((n - 703) / 676 + 1), natLetterChar ((n - 703) / 26 % 26 + 1),
     natLetterChar ((n - 703) % 26 + 1)]

/-- Modelled from the spec: the decimal digit character of `d < 10`. -/
def natDigitChar : ℕ → Char
  | 0 => '0' | 1 => '1' | 2 => '2' | 3 => '3' | 4 => '4'
  | 5 => '5' | 6 => '6' | 7 => '7' | 8 => '8' | 9 => '9' | _ => '0'

/-- Modelled from the spec: the decimal digit characters of a positive
row number, most significant first. -/
def digitCharsOfNat (n : ℕ) : List Char :=
  ((Nat.digits 10 n).reverse).map natDigitChar

/-- Modelled from the spec: the textual form of a cell number. -/
def cellRefCharsOfNumbers (cn : CellNumbers) : List Char :=
  colLettersOfNumber cn.col ++ digitCharsOfNat cn.row

/-- Modelled from the spec: the textual form `"X:Y"` of a range. -/
def cellRangeRefOfRangeNumbers (r : CellRangeNumbers) : String :=
  ⟨cellRefCharsOfNumbers r.start ++ ':' :: cellRefCharsOfNumbers r.«end»⟩

/-- A column-letter string accepted by `CELL_REF_REGEX`:
1 to 3 characters, all in `[A-Z]`. -/
def ValidColLetters (ls : List Char) : Prop :=
  1 ≤ ls.length ∧ ls.length ≤ 3 ∧ ∀ c ∈ ls, isUpperAZ c

instance (ls : List Char) : Decidable (ValidColLetters ls) := by
  unfold ValidColLetters; infer_instance

/-! ### Facts about characters, letters and digits -/

theorem char_eq_of_toNat_eq {a b : Char} (h : a.toNat = b.toNat) : a = b :=
  Char.eq_of_val_eq (UInt32.ext h)

theorem natLetterChar_toNat {v : ℕ} (h1 : 1 ≤ v) (h2 : v ≤ 26) :
    (natLetterChar v).toNat = 64 + v := by
  interval_cases v <;> rfl

theorem isUpperAZ_bounds {c : Char} (h : isUpperAZ c) :
    65 ≤ c.toNat ∧ c.toNat ≤ 90 := by
  simpa [isUpperAZ] using h

theorem natLetterChar_eq_of_upper {c : Char} (h : isUpperAZ c) :
    natLetterChar (c.toNat - 64) = c := by
  obtain ⟨h1, h2⟩ := isUpperAZ_bounds h
  exact char_eq_of_toNat_eq (by rw [natLetterChar_toNat (by omega) (by omega)]; omega)

theorem natDigitChar_toNat {d : ℕ} (h : d < 10) : (natDigitChar d).toNat = 48 + d := by
  interval_cases d <;> rfl

theorem isDigit09_bounds {c : Char} (h : isDigit09 c) :
    48 ≤ c.toNat ∧ c.toNat ≤ 57 := by
  simpa [isDigit09] using h

/-! ### Round trip between column letters and column numbers -/

theorem colLetters_colRefNumber (ls : List Char) (h : ValidColLetters ls) :
    colLettersOfNumber (colRefNumber ls) = ls := by
  obtain ⟨hlen1, hlen3, hup⟩ := h
  match ls with
  | [a] =>
    obtain ⟨ha1, ha2⟩ := isUpperAZ_bounds (hup a (by simp))
    have hfold : colRefNumber [a] = a.toNat - 64 := by
      simp [colRefNumber, colRefNumBase, colRefNumOffset]
    rw [hfold, colLettersOfNumber, if_pos (by omega)]
    rw [natLetterChar_eq_of_upper (hup a (by simp))]
  | [a, b] =>
    obtain ⟨ha1, ha2⟩ := isUpperAZ_bounds (hup a (by simp))
    obtain ⟨hb1, hb2⟩ := isUpperAZ_bounds (hup b (by simp))
    have hfold : colRefNumber [a, b] = (a.toNat - 64) * 26 + (b.toNat - 64) := by
      simp [colRefNumber, colRefNumBase, colRefNumOffset]
    rw [hfold, colLettersOfNumber, if_neg (by omega), if_pos (by omega)]
    have e1 : ((a.toNat - 64) * 26 + (b.toNat - 64) - 27) / 26 + 1 = a.toNat - 64 := by
      omega
    have e2 : ((a.toNat - 64) * 26 + (b.toNat - 64) - 27) % 26 + 1 = b.toNat - 64 := by
      omega
    rw [e1, e2, natLetterChar_eq_of_upper (hup a (by simp)),
      natLetterChar_eq_of_upper (hup b (by simp))]
  | [a, b, c] =>
    obtain ⟨ha1, ha2⟩ := isUpperAZ_bounds (hup a (by simp))
    obtain ⟨hb1, hb2⟩ := isUpperAZ_bounds (hup b (by simp))
    obtain ⟨hc1, hc2⟩ := isUpperAZ_bounds (hup c (by simp))
    have hfold : colRefNumber [a, b, c] =
        ((a.toNat - 64) * 26 + (b.toNat - 64)) * 26 + (c.toNat - 64) := by
      simp [colRefNumber, colRefNumBase, colRefNumOffset]
    rw [hfold, colLettersOfNumber, if_neg (by omega), if_neg (by omega)]
    have e1 : (((a.toNat - 64) * 26 + (b.toNat - 64)) * 26 + (c.toNat - 64) - 703) / 676 + 1
        = a.toNat - 64 := by omega
    have e2 : (((a.toNat - 64) * 26 + (b.toNat - 64)) * 26 + (c.toNat - 64) - 703) / 26 % 26 + 1
        = b.toNat - 64 := by omega
    have e3 : (((a.toNat - 64) * 26 + (b.toNat - 64)) * 26 + (c.toNat - 64) - 703) % 26 + 1
        = c.toNat - 64 := by omega
    rw [e1, e2, e3, natLetterChar_eq_of_upper (hup a (by simp)),
      natLetterChar_eq_of_upper (hup b (by simp)),
      natLetterChar_eq_of_upper (hup c (by simp))]

theorem colRefNumber_bounds (ls : List Char) (h : ValidColLetters ls) :
    1 ≤ colRefNumber ls ∧ colRefNumber ls ≤ 18278 := by
  obtain ⟨hlen1, hlen3, hup⟩ := h
  match ls with
  | [a] =>
    obtain ⟨ha1, ha2⟩ := isUpperAZ_bounds (hup a (by simp))
    have hfold : colRefNumber [a] = a.toNat - 64 := by
      simp [colRefNumber, colRefNumBase, colRefNumOffset]
    omega
  | [a, b] =>
    obtain ⟨ha1, ha2⟩ := isUpperAZ_bounds (hup a (by simp))
    obtain ⟨hb1, hb2⟩ := isUpperAZ_bounds (hup b (by simp))
    have hfold : colRefNumber [a, b] = (a.toNat - 64) * 26 + (b.toNat - 64) := by
      simp [colRefNumber, colRefNumBase, colRefNumOffset]
    omega
  | [a, b, c] =>
    obtain ⟨ha1, ha2⟩ := isUpperAZ_bounds (hup a (by simp))
    obtain ⟨hb1, hb2⟩ := isUpperAZ_bounds (hup b (by simp))
    obtain ⟨hc1, hc2⟩ := isUpperAZ_bounds (hup c (by simp))
    have hfold : colRefNumber [a, b, c] =
        ((a.toNat - 64) * 26 + (b.toNat - 64)) * 26 + (c.toNat - 64) := by
      simp [colRefNumber, colRefNumBase, colRefNumOffset]
    omega

/-! ### Round trip between digit characters and row numbers -/

theorem foldr_digitChar_eq_ofDigits (l : List ℕ) (h : ∀ d ∈ l, d < 10) :
    l.foldr (fun x y => y * 10 + ((natDigitChar x).toNat - 48)) 0 = Nat.ofDigits 10 l := by
  induction l with
  | nil => simp [Nat.ofDigits]
  | cons d ds ih =>
    have hd : d < 10 := h d (by simp)
    rw [List.foldr_cons, ih (fun e he => h e (by simp [he])), Nat.ofDigits_cons,
      natDigitChar_toNat hd]
    omega

theorem decimalNumber_digitChars (n : ℕ) : decimalNumber (digitCharsOfNat n) = n := by
  unfold decimalNumber digitCharsOfNat
  rw [List.foldl_map, List.foldl_reverse,
    foldr_digitChar_eq_ofDigits _ (fun d hd => Nat.digits_lt_base (by norm_num) hd)]
  exact Nat.ofDigits_digits 10 n

theorem digitCharsOfNat_facts (n : ℕ) (h : 1 ≤ n) :
    digitCharsOfNat n ≠ [] ∧ (∀ c ∈ digitCharsOfNat n, isDigit09 c) ∧
      (digitCharsOfNat n).headD '0' ≠ '0' := by
  have hne : Nat.digits 10 n ≠ [] := Nat.digits_ne_nil_iff_ne_zero.mpr (by omega)
  rcases (Nat.digits 10 n).eq_nil_or_concat with hnil | ⟨ds, d, hsplit⟩
  · exact absurd hnil hne
  have hd0 : d ≠ 0 := by
    have h1 : (Nat.digits 10 n).getLast? = some d := by
      rw [hsplit, List.concat_eq_append]; exact List.getLast?_concat _
    have h2 : (Nat.digits 10 n).getLast? = some ((Nat.digits 10 n).getLast hne) :=
      List.getLast?_eq_getLast _ hne
    have h3 : d = (Nat.digits 10 n).getLast hne := Option.some.inj (h1 ▸ h2)
    rw [h3]
    exact Nat.getLast_digit_ne_zero 10 (by omega)
  have hdlt : d < 10 := Nat.digits_lt_base (by norm_num) (by rw [hsplit]; simp)
  have hform : digitCharsOfNat n = natDigitChar d :: (ds.reverse.map natDigitChar) := by
    unfold digitCharsOfNat
    rw [hsplit]
    simp
  refine ⟨by rw [hform]; simp, ?_, ?_⟩
  · intro c hc
    unfold digitCharsOfNat at hc
    obtain ⟨e, he, hce⟩ := List.mem_map.mp hc
    have helt : e < 10 :=
      Nat.digits_lt_base (by norm_num) (List.mem_reverse.mp he)
    subst hce
    simp [isDigit09, natDigitChar_toNat helt]
    omega
  · rw [hform]
    intro hcontra
    have : (natDigitChar d).toNat = 48 := by rw [List.headD_cons] at hcontra; rw [hcontra]; rfl
    rw [natDigitChar_toNat hdlt] at this
    omega

theorem digitChar_not_upper {d : ℕ} (h : d < 10) : isUpperAZ (natDigitChar d) = false := by
  simp [isUpperAZ, natDigitChar_toNat h]
  omega

theorem digitCharsOfNat_not_upper (n : ℕ) :
    ∀ c ∈ digitCharsOfNat n, isUpperAZ c = false := by
  intro c hc
  obtain ⟨e, he, hce⟩ := List.mem_map.mp hc
  have helt : e < 10 := Nat.digits_lt_base (by norm_num) (List.mem_reverse.mp he)
  subst hce
  exact digitChar_not_upper helt

theorem digitCharsOfNat_ne_colon (n : ℕ) : ∀ c ∈ digitCharsOfNat n, c ≠ ':' := by
  intro c hc
  obtain ⟨e, he, hce⟩ := List.mem_map.mp hc
  have helt : e < 10 := Nat.digits_lt_base (by norm_num) (List.mem_reverse.mp he)
  subst hce
  intro hcontra
  have : (natDigitChar e).toNat = 58 := by rw [hcontra]; rfl
  rw [natDigitChar_toNat helt] at this
  omega

theorem upper_ne_colon {c : Char} (h : isUpperAZ c) : c ≠ ':' := by
  obtain ⟨h1, _⟩ := isUpperAZ_bounds h
  intro hcontra
  subst hcontra
  simp at h1

/-! ### Inversion and round trip of the cell-reference parser -/

theorem takeWhile_append_of_all {p : Char → Bool} (l1 l2 : List Char)
    (h : ∀ c ∈ l1, p c) : (l1 ++ l2).takeWhile p = l1 ++ l2.takeWhile p := by
  induction l1 with
  | nil => simp
  | cons c cs ih =>
    simp only [List.cons_append, List.takeWhile_cons, h c (by simp)]
    rw [ih (fun e he => h e (by simp [he]))]
    simp

theorem dropWhile_append_of_all {p : Char → Bool} (l1 l2 : List Char)
    (h : ∀ c ∈ l1, p c) : (l1 ++ l2).dropWhile p = l2.dropWhile p := by
  induction l1 with
  | nil => simp
  | cons c cs ih =>
    simp only [List.cons_append, List.dropWhile_cons, h c (by simp)]
    exact ih (fun e he => h e (by simp [he]))

theorem decimalNumber_pos (ds : List Char) (hne : ds ≠ [])
    (hall : ∀ c ∈ ds, isDigit09 c) (hhead : ds.headD '0' ≠ '0') :
    1 ≤ decimalNumber ds := by
  match ds with
  | d :: tl =>
    have hd : isDigit09 d := hall d (by simp)
    obtain ⟨hd1, hd2⟩ := isDigit09_bounds hd
    have hdne : d.toNat ≠ 48 := by
      intro hcontra
      have hd0 : d = '0' := char_eq_of_toNat_eq (by rw [hcontra]; rfl)
      rw [List.headD_cons] at hhead
      exact hhead hd0
    have hstart : 1 ≤ d.toNat - 48 := by omega
    unfold decimalNumber
    rw [List.foldl_cons]
    have aux : ∀ (l : List Char) (acc : ℕ), 1 ≤ acc →
        1 ≤ l.foldl (fun result c => result * 10 + (c.toNat - 48)) acc := by
      intro l
      induction l with
      | nil => intro acc h; simpa using h
      | cons e es ih =>
        intro acc h
        rw [List.foldl_cons]
        exact ih _ (by omega)
    exact aux tl _ (by omega)

theorem cellRefCore_inv (cs : List Char) (cn : CellNumbers)
    (h : getCellNumbersFromCellRefCore cs = some cn) :
    ValidColLetters (cs.takeWhile isUpperAZ) ∧
      cn.col = colRefNumber (cs.takeWhile isUpperAZ) ∧ 1 ≤ cn.row := by
  unfold getCellNumbersFromCellRefCore at h
  split_ifs at h with hcond
  · obtain ⟨h1, h2, h3, h4, h5⟩ := hcond
    obtain ⟨hcol, hrow⟩ : colRefNumber (cs.takeWhile isUpperAZ) = cn.col ∧
        decimalNumber (cs.dropWhile isUpperAZ) = cn.row := by
      have := Option.some.inj h
      constructor <;> rw [← this]
    refine ⟨⟨h1, h2, fun c hc => List.mem_takeWhile_imp hc⟩, hcol.symm, ?_⟩
    rw [← hrow]
    exact decimalNumber_pos _ h3 (fun c hc => by
      have := List.all_eq_true.mp h4 c hc
      simpa using this) h5

theorem cellRefCore_roundtrip (cn : CellNumbers) (ls : List Char) (hv : ValidColLetters ls)
    (hcol : colRefNumber ls = cn.col) (hrow : 1 ≤ cn.row) :
    getCellNumbersFromCellRefCore (cellRefCharsOfNumbers cn) = some cn := by
  obtain ⟨col, row⟩ := cn
  simp only at hcol hrow
  have hletters : colLettersOfNumber col = ls := by
    rw [← hcol]; exact colLetters_colRefNumber ls hv
  obtain ⟨hlen1, hlen3, hup⟩ := hv
  obtain ⟨hdne, hdall, hdhead⟩ := digitCharsOfNat_facts row hrow
  have hchars : cellRefCharsOfNumbers ⟨col, row⟩ = ls ++ digitCharsOfNat row := by
    unfold cellRefCharsOfNumbers
    rw [hletters]
  have htake : (ls ++ digitCharsOfNat row).takeWhile isUpperAZ = ls := by
    rw [takeWhile_append_of_all _ _ hup]
    rcases hd : digitCharsOfNat row with _ | ⟨c, tl⟩
    · exact absurd hd hdne
    · have : isUpperAZ c = false := digitCharsOfNat_not_upper row c (by rw [hd]; simp)
      simp [List.takeWhile_cons, this]
  have hdrop : (ls ++ digitCharsOfNat row).dropWhile isUpperAZ = digitCharsOfNat row := by
    rw [dropWhile_append_of_all _ _ hup]
    rcases hd : digitCharsOfNat row with _ | ⟨c, tl⟩
    · simp
    · have : isUpperAZ c = false := digitCharsOfNat_not_upper row c (by rw [hd]; simp)
      simp [List.dropWhile_cons, this]
  unfold getCellNumbersFromCellRefCore
  rw [hchars, htake, hdrop]
  rw [if_pos ⟨hlen1, hlen3, hdne, List.all_eq_true.mpr (fun c hc => by
    simpa using hdall c hc), hdhead⟩]
  rw [hcol, decimalNumber_digitChars]

theorem splitOnChar_of_not_mem (sep : Char) (l : List Char) (h : sep ∉ l) :
    splitOnChar sep l = [l] := by
  induction l with
  | nil => rfl
  | cons c cs ih =>
    have hc : ¬ c = sep := fun hcontra => h (by simp [hcontra])
    rw [splitOnChar, if_neg hc, ih (fun hmem => h (by simp [hmem]))]

theorem splitOnChar_append (sep : Char) (l1 l2 : List Char) (h : sep ∉ l1) :
    splitOnChar sep (l1 ++ sep :: l2) = l1 :: splitOnChar sep l2 := by
  induction l1 with
  | nil => simp [splitOnChar]
  | cons c cs ih =>
    have hc : ¬ c = sep := fun hcontra => h (by simp [hcontra])
    rw [List.cons_append, splitOnChar, if_neg hc, ih (fun hmem => h (by simp [hmem]))]

theorem cellRefChars_no_colon (cn : CellNumbers) (hcol : ∃ ls, ValidColLetters ls ∧
    colRefNumber ls = cn.col) : ':' ∉ cellRefCharsOfNumbers cn := by
  obtain ⟨ls, hv, hfold⟩ := hcol
  have hletters : colLettersOfNumber cn.col = ls := by
    rw [← hfold]; exact colLetters_colRefNumber ls hv
  unfold cellRefCharsOfNumbers
  rw [hletters]
  intro hmem
  rcases List.mem_append.mp hmem with hmem1 | hmem2
  · exact upper_ne_colon (hv.2.2 ':' hmem1) rfl
  · exact digitCharsOfNat_ne_colon cn.row ':' hmem2 rfl

theorem rangeCore_inv (cs : List Char) (r : CellRangeNumbers)
    (h : getCellRangeNumbersFromCellRangeRefCore cs = some r) :
    (∃ ls, ValidColLetters ls ∧ colRefNumber ls = r.start.col) ∧
    (∃ ls, ValidColLetters ls ∧ colRefNumber ls = r.«end».col) ∧
    1 ≤ r.start.row ∧ 1 ≤ r.«end».row ∧
    r.start.col ≤ r.«end».col ∧ r.start.row ≤ r.«end».row := by
  unfold getCellRangeNumbersFromCellRangeRefCore at h
  rcases hsp : splitOnChar ':' cs with _ | ⟨cs0, _ | ⟨cs1, _ | _⟩⟩ <;> rw [hsp] at h <;>
    dsimp only at h
  · exact absurd h (by simp)
  · rcases hc : getCellNumbersFromCellRefCore cs0 with _ | sn <;> rw [hc] at h
    · exact absurd h (by simp)
    obtain ⟨hval, hcol, hrow⟩ := cellRefCore_inv cs0 sn hc
    have hr : r = ⟨sn, sn⟩ := (Option.some.inj (by simpa using h)).symm
    subst hr
    exact ⟨⟨_, hval, hcol.symm⟩, ⟨_, hval, hcol.symm⟩, hrow, hrow, le_refl _, le_refl _⟩
  · rcases hc0 : getCellNumbersFromCellRefCore cs0 with _ | sn <;> rw [hc0] at h
    · exact absurd h (by simp)
    rcases hc1 : getCellNumbersFromCellRefCore cs1 with _ | en <;> rw [hc1] at h
    · exact absurd h (by simp)
    obtain ⟨hval0, hcol0, hrow0⟩ := cellRefCore_inv cs0 sn hc0
    obtain ⟨hval1, hcol1, hrow1⟩ := cellRefCore_inv cs1 en hc1
    have hr : r = ⟨⟨min sn.col en.col, min sn.row en.row⟩,
        ⟨max sn.col en.col, max sn.row en.row⟩⟩ := (Option.some.inj (by simpa using h)).symm
    subst hr
    refine ⟨?_, ?_, le_min hrow0 hrow1, le_max_of_le_left hrow0, min_le_max, min_le_max⟩
    · rcases min_choice sn.col en.col with hmin | hmin <;> rw [hmin]
      · exact ⟨_, hval0, hcol0.symm⟩
      · exact ⟨_, hval1, hcol1.symm⟩
    · rcases max_choice sn.col en.col with hmax | hmax <;> rw [hmax]
      · exact ⟨_, hval0, hcol0.symm⟩
      · exact ⟨_, hval1, hcol1.symm⟩
  · exact absurd h (by simp)

theorem rangeRef_reparse (r : CellRangeNumbers)
    (h1 : ∃ ls, ValidColLetters ls ∧ colRefNumber ls = r.start.col)
    (h2 : ∃ ls, ValidColLetters ls ∧ colRefNumber ls = r.«end».col)
    (h3 : 1 ≤ r.start.row) (h4 : 1 ≤ r.«end».row)
    (h5 : r.start.col ≤ r.«end».col) (h6 : r.start.row ≤ r.«end».row) :
    getCellRangeNumbersFromCellRangeRef (cellRangeRefOfRangeNumbers r) = some r := by
  obtain ⟨ls1, hv1, hf1⟩ := h1
  obtain ⟨ls2, hv2, hf2⟩ := h2
  show getCellRangeNumbersFromCellRangeRefCore
    (cellRefCharsOfNumbers r.start ++ ':' :: cellRefCharsOfNumbers r.«end») = some r
  unfold getCellRangeNumbersFromCellRangeRefCore
  rw [splitOnChar_append _ _ _ (cellRefChars_no_colon r.start ⟨ls1, hv1, hf1⟩),
    splitOnChar_of_not_mem _ _ (cellRefChars_no_colon r.«end» ⟨ls2, hv2, hf2⟩)]
  simp only [cellRefCore_roundtrip r.start ls1 hv1 hf1 h3,
    cellRefCore_roundtrip r.«end» ls2 hv2 hf2 h4]
  rw [min_eq_left h5, min_eq_left h6, max_eq_right h5, max_eq_right h6]

/-- C6: every range accepted by the range-reference parser is
normalised (`start.col ≤ end.col`, `start.row ≤ end.row`, with `start`
the componentwise minimum and `end` the maximum, and `start = end` when
the `":end"` part is absent), and re-parsing the textual form of the
already-normalised range yields the same `{start, end}`. -/
theorem rangeRef_parse_normalised_roundtrip (s : String) (r : CellRangeNumbers)
    (h : getCellRangeNumbersFromCellRangeRef s = some r) :
    r.start.col ≤ r.«end».col ∧ r.start.row ≤ r.«end».row ∧
    getCellRangeNumbersFromCellRangeRef (cellRangeRefOfRangeNumbers r) = some r := by
  obtain ⟨e1, e2, e3, e4, e5, e6⟩ := rangeCore_inv s.data r h
  exact ⟨e5, e6, rangeRef_reparse r e1 e2 e3 e4 e5 e6⟩

/-- Witness for C6 at the concrete reversed range `"B3:A1"`. -/
theorem rangeRef_parse_normalised_roundtrip_witness :
    getCellRangeNumbersFromCellRangeRef "B3:A1" = some ⟨⟨1, 1⟩, ⟨2, 3⟩⟩ ∧
      (1 ≤ 2 ∧ 1 ≤ 3 ∧
        getCellRangeNumbersFromCellRangeRef
          (cellRangeRefOfRangeNumbers ⟨⟨1, 1⟩, ⟨2, 3⟩⟩) = some ⟨⟨1, 1⟩, ⟨2, 3⟩⟩) :=
  ⟨by decide, rangeRef_parse_normalised_roundtrip "B3:A1" ⟨⟨1, 1⟩, ⟨2, 3⟩⟩ (by decide)⟩

/-- C7: the parser's column-letter fold `acc = acc * 26 + (char - 'A' + 1)`
is injective on 1-3 letter uppercase strings, the letter→number→letter
round trip is the identity, and the specific values `A↦1`, `Z↦26`,
`AA↦27`, `AZ↦52`, `BA↦53`, `ZZ↦702`, `AAA↦703` hold. -/
theorem colLetters_fold_injective_roundtrip :
    (∀ s t : List Char, ValidColLetters s → ValidColLetters t →
        colRefNumber s = colRefNumber t → s = t) ∧
    (∀ s : List Char, ValidColLetters s → colLettersOfNumber (colRefNumber s) = s) ∧
    colRefNumber ['A'] = 1 ∧ colRefNumber ['Z'] = 26 ∧
    colRefNumber ['A', 'A'] = 27 ∧ colRefNumber ['A', 'Z'] = 52 ∧
    colRefNumber ['B', 'A'] = 53 ∧ colRefNumber ['Z', 'Z'] = 702 ∧
    colRefNumber ['A', 'A', 'A'] = 703 ∧
    getCellNumbersFromCellRef "AZ9" = some ⟨52, 9⟩ := by
  refine ⟨fun s t hs ht he => ?_, colLetters_colRefNumber, ?_⟩
  · rw [← colLetters_colRefNumber s hs, he, colLetters_colRefNumber t ht]
  · exact ⟨by decide, by decide, by decide, by decide, by decide, by decide, by decide,
      by decide⟩

/-- Witness for C7: the round trip and injectivity applied at the
concrete strings `["A","B"]` and `["A","B"]`. -/
theorem colLetters_fold_injective_roundtrip_witness :
    ValidColLetters ['A', 'B'] ∧ colLettersOfNumber (colRefNumber ['A', 'B']) = ['A', 'B'] :=
  ⟨by decide, colLetters_fold_injective_roundtrip.2.1 ['A', 'B'] (by decide)⟩

/-! ## Geometry and unit model (src/unnamed/part_008) -/

structure Pos where
  x : ℚ
  y : ℚ
deriving DecidableEq

structure Size where
  width : ℚ
  height : ℚ
deriving DecidableEq

structure Rect where
  x : ℚ
  y : ℚ
  width : ℚ
  height : ℚ
deriving DecidableEq

/-- `getRectFromPosSize`. -/
def getRectFromPosSize (pos : Pos) (size : Size) : Rect :=
  ⟨pos.x, pos.y, size.width, size.height⟩

/-- `getRectFromEdges`. -/
def getRectFromEdges (left top right bottom : ℚ) : Rect :=
  ⟨left, top, right - left, bottom - top⟩

structure ScaleParams where
  characterUnit : ℚ
  pixelPerPoint : ℚ

/-- `getPixelWidth`: character units to pixels. -/
def getPixelWidth (charUnitWidth : ℚ) (params : ScaleParams) : ℚ :=
  charUnitWidth * params.characterUnit * params.pixelPerPoint

/-- `getPixelHeight`: points to pixels. -/
def getPixelHeight (pointHeight : ℚ) (params : ScaleParams) : ℚ :=
  pointHeight * params.pixelPerPoint

/-- `EMU_PER_POINT`. -/
def emuPerPoint : ℚ := 12700

/-- `POINTS_PER_INCH`. -/
def pointsPerInch : ℚ := 72

/-- `IMAGE_RANGE_EXT_DPI`. -/
def imageRangeExtDpi : ℚ := 96

/-! ## Style lowering (src/unnamed/part_008) -/

/-- The `exceljs` `BorderStyle` string union. -/
inductive BorderStyle where
  | hair | thin | double | dotted | dashed | dashDot | dashDotDot
  | medium | mediumDashDot | mediumDashDotDot | mediumDashed | slantDashDot | thick
deriving DecidableEq

/-- `CanvasBorderStyle = "none" | BorderStyle`; `Option.none` models `"none"`. -/
abbrev CanvasBorderStyle := Option BorderStyle

structure ColorSpec where
  argb : Option String
deriving DecidableEq

/-- `getCanvasColor`: ARGB hex to `#RRGGBBAA`, or `null`. -/
def getCanvasColor (color : Option ColorSpec) : Option String :=
  match color with
  | none => none
  | some c =>
    match c.argb with
    | none => none
    | some argb => some ("#" ++ argb.drop 2 ++ argb.take 2)

structure Fill where
  type : String
  bgColor : Option ColorSpec
deriving DecidableEq

structure Border where
  color : Option ColorSpec
  style : Option BorderStyle
deriving DecidableEq

structure Borders where
  left : Option Border
  top : Option Border
  right : Option Border
  bottom : Option Border
deriving DecidableEq

structure Font where
  name : Option String
  family : Option ℤ
  size : Option ℚ
  bold : Option Bool
  italic : Option Bool
  color : Option ColorSpec
deriving DecidableEq

/-- `number | "vertical"` text rotation. -/
inductive TextRotation where
  | deg (value : ℚ)
  | vertical
deriving DecidableEq

/-- The `exceljs` `Partial<Alignment>` fields read by the renderer. -/
structure Alignment where
  horizontal : Option String
  vertical : Option String
  wrapText : Option Bool
  shrinkToFit : Option Bool
  indent : Option ℚ
  textDirection : Option String
  textRotation : Option TextRotation
deriving DecidableEq

/-- The `exceljs` `Cell` capabilities the renderer reads.  `text = none`
models the throwing `cell.text` getter that `getCanvasTextValue`
swallows into `""`. -/
structure Cell where
  text : Option String
  isMerged : Bool
  fill : Option Fill
  border : Option Borders
  font : Option Font
  alignment : Option Alignment

structure CanvasAlignment where
  horizontal : String
  vertical : String
  wrapText : Bool
  shrinkToFit : Bool
  indent : ℚ
  textDirection : String
  textRotation : TextRotation
deriving DecidableEq

structure FallbackFont where
  familyName : String
  size : ℚ

structure BorderParams where
  fallbackColor : String
  fallbackStyle : CanvasBorderStyle
  pixelWidthMap : BorderStyle → ℚ
  pixelSegmentsMap : BorderStyle → List ℚ

structure TextParams where
  fallbackColor : String
  fallbackFont : FallbackFont
  fallbackAlignment : CanvasAlignment
  lineHeight : ℚ

structure DrawingParams where
  scale : ScaleParams
  border : BorderParams
  text : TextParams
  backgroundColor : String
  fallbackColCharUnitWidth : ℚ
  cellPixelPadding : ℚ

structure CanvasBackground where
  color : String
deriving DecidableEq

structure CanvasBorder where
  color : String
  style : CanvasBorderStyle
  width : ℚ
  segments : List ℚ
deriving DecidableEq

structure CanvasBorders where
  left : CanvasBorder
  top : CanvasBorder
  right : CanvasBorder
  bottom : CanvasBorder
deriving DecidableEq

structure CanvasText where
  color : String
  font : String
  alignment : CanvasAlignment
  lineHeight : ℚ
  value : String
deriving DecidableEq

/-- `CanvasCell = { background, borders, text } & Rect`. -/
structure CanvasCell where
  x : ℚ
  y : ℚ
  width : ℚ
  height : ℚ
  background : CanvasBackground
  borders : CanvasBorders
  text : CanvasText
deriving DecidableEq

/-- `getCanvasBackground`. -/
def getCanvasBackground (cell : Cell) (params : DrawingParams) : CanvasBackground :=
  match cell.fill with
  | none => ⟨params.backgroundColor⟩
  | some fill =>
    if fill.type = "pattern" then
      ⟨(getCanvasColor fill.bgColor).getD params.backgroundColor⟩
    else
      ⟨params.backgroundColor⟩

/-- `getCanvasBorder`. -/
def getCanvasBorder (border : Option Border) (params : BorderParams) : CanvasBorder :=
  let color := (getCanvasColor (border.bind Border.color)).getD params.fallbackColor
  match (border.bind Border.style).elim params.fallbackStyle some with
  | none => ⟨color, none, 0, []⟩
  | some style => ⟨color, some style, params.pixelWidthMap style, params.pixelSegmentsMap style⟩

/-- `getCanvasBorders`. -/
def getCanvasBorders (borders : Option Borders) (params : BorderParams) : CanvasBorders :=
  ⟨getCanvasBorder (borders.bind Borders.left) params,
   getCanvasBorder (borders.bind Borders.top) params,
   getCanvasBorder (borders.bind Borders.right) params,
   getCanvasBorder (borders.bind Borders.bottom) params⟩

/-- `FALLBACK_FONT_FAMILY_MAP[family] ?? ""`. -/
def fallbackFontFamilyName (family : ℤ) : String :=
  if family = 1 then "serif"
  else if family = 2 then "sans-serif"
  else if family = 3 then "monospace"
  else ""

/-- `getCanvasFont`: the canvas font string. -/
def getCanvasFont (font : Option Font) (params : DrawingParams) : String :=
  let italic := (font.bind Font.italic).getD false
  let bold := (font.bind Font.bold).getD false
  let size := (font.bind Font.size).getD params.text.fallbackFont.size
  let name := (font.bind Font.name).getD params.text.fallbackFont.familyName
  let family := (font.bind Font.family).getD (-1)
  let fontStyle := (if italic then "italic" else "") ++ " " ++ (if bold then "bold" else "")
  let fontSize := toString (size * params.scale.pixelPerPoint) ++ "px"
  let fontFamily := name ++ " " ++ fallbackFontFamilyName family
  fontStyle ++ " " ++ fontSize ++ " " ++ fontFamily

/-- `getCanvasLineHeight`. -/
def getCanvasLineHeight (font : Option Font) (params : DrawingParams) : ℚ :=
  (font.bind Font.size).getD params.text.fallbackFont.size
    * params.scale.pixelPerPoint * params.text.lineHeight

/-- `TEXT_ALIGN_SET`. -/
def textAlignSet : List String := ["left", "right", "center", "start", "end"]

/-- `TEXT_BASELINE_SET`. -/
def textBaselineSet : List String :=
  ["top", "hanging", "middle", "alphabetic", "ideographic", "bottom"]

/-- `isTextAlign`. -/
def isTextAlign (value : String) : Bool := textAlignSet.contains value

/-- `isTextBaseline`. -/
def isTextBaseline (value : String) : Bool := textBaselineSet.contains value

/-- `getCanvasTextAlign`. -/
def getCanvasTextAlign (value : Option String) : Option String :=
  value.bind fun v => if isTextAlign v then some v else none

/-- `getCanvasTextBaseline`. -/
def getCanvasTextBaseline (value : Option String) : Option String :=
  value.bind fun v => if isTextBaseline v then some v else none

/-- `getCanvasAlignment`: fallback fields overridden by present source
fields, horizontal/vertical validated. -/
def getCanvasAlignment (alignment : Option Alignment)
    (fallbackAlignment : CanvasAlignment) : CanvasAlignment :=
  { horizontal := (getCanvasTextAlign (alignment.bind Alignment.horizontal)).getD
      fallbackAlignment.horizontal
    vertical := (getCanvasTextBaseline (alignment.bind Alignment.vertical)).getD
      fallbackAlignment.vertical
    wrapText := (alignment.bind Alignment.wrapText).getD fallbackAlignment.wrapText
    shrinkToFit := (alignment.bind Alignment.shrinkToFit).getD fallbackAlignment.shrinkToFit
    indent := (alignment.bind Alignment.indent).getD fallbackAlignment.indent
    textDirection := (alignment.bind Alignment.textDirection).getD
      fallbackAlignment.textDirection
    textRotation := (alignment.bind Alignment.textRotation).getD
      fallbackAlignment.textRotation }

/-- `getCanvasTextValue`: a throwing `cell.text` becomes `""`. -/
def getCanvasTextValue (cell : Cell) : String := cell.text.getD ""

/-- `getCanvasText`. -/
def getCanvasText (cell : Cell) (params : DrawingParams) : CanvasText :=
  { color := (getCanvasColor (cell.font.bind Font.color)).getD params.text.fallbackColor
    font := getCanvasFont cell.font params
    alignment := getCanvasAlignment cell.alignment params.text.fallbackAlignment
    lineHeight := getCanvasLineHeight cell.font params
    value := getCanvasTextValue cell }

/-- `getCanvasCell`. -/
def getCanvasCell (cell : Cell) (rect : Rect) (params : DrawingParams) : CanvasCell :=
  { x := rect.x, y := rect.y, width := rect.width, height := rect.height
    background := getCanvasBackground cell params
    borders := getCanvasBorders cell.border params.border
    text := getCanvasText cell params }

/-! ## Anchors and image rectangles (src/unnamed/part_008) -/

/-- The `exceljs` `Partial<Anchor>` fields read by the renderer. -/
structure Anchor where
  col : Option ℕ
  row : Option ℕ
  nativeCol : Option ℕ
  nativeRow : Option ℕ
  nativeColOff : Option ℚ
  nativeRowOff : Option ℚ
deriving DecidableEq

structure CanvasAnchor where
  col : ℕ
  row : ℕ
  pixelOffsetX : ℚ
  pixelOffsetY : ℚ
deriving DecidableEq

/-- `getCanvasBottomRightAnchor`: native fields preferred, EMU offsets
defaulting to 0, converted by `emu / 12700 * pixelPerPoint`. -/
def getCanvasBottomRightAnchor (anchor : Option Anchor) (params : ScaleParams) :
    Option CanvasAnchor :=
  match anchor with
  | none => none
  | some anchor =>
    match anchor.nativeCol.or anchor.col, anchor.nativeRow.or anchor.row with
    | some colIndex, some rowIndex =>
      some ⟨colIndex, rowIndex,
        anchor.nativeColOff.getD 0 / emuPerPoint * params.pixelPerPoint,
        anchor.nativeRowOff.getD 0 / emuPerPoint * params.pixelPerPoint⟩
    | _, _ => none

/-- `getCanvasTopLeftAnchor`: the bottom-right conversion with both
`col` and `row` incremented by 1. -/
def getCanvasTopLeftAnchor (anchor : Option Anchor) (params : ScaleParams) :
    Option CanvasAnchor :=
  (getCanvasBottomRightAnchor anchor params).map fun canvasAnchor =>
    { canvasAnchor with col := canvasAnchor.col + 1, row := canvasAnchor.row + 1 }

structure ImageExt where
  width : Option ℚ
  height : Option ℚ
deriving DecidableEq

/-- `FixedImageRange`. -/
structure FixedImageRange where
  tl : Option Anchor
  br : Option Anchor
  ext : Option ImageExt
deriving DecidableEq

/-- `getImagePixelSize`: `ext` pixels at 96 DPI → points → pixels. -/
def getImagePixelSize (imageRange : FixedImageRange) (params : ScaleParams) : Option Size :=
  match imageRange.ext with
  | none => none
  | some ext =>
    match ext.width, ext.height with
    | some width, some height =>
      some ⟨width * pointsPerInch / imageRangeExtDpi * params.pixelPerPoint,
            height * pointsPerInch / imageRangeExtDpi * params.pixelPerPoint⟩
    | _, _ => none

/-- `getRectFromTopLeftBottomRight`. -/
def getRectFromTopLeftBottomRight (topLeftAnchor bottomRightAnchor : CanvasAnchor)
    (getRect : CanvasAnchor → Option Rect) : Option Rect :=
  match getRect topLeftAnchor, getRect bottomRightAnchor with
  | some startRect, some endRect =>
    some (getRectFromEdges startRect.x startRect.y
      (endRect.x + endRect.width) (endRect.y + endRect.height))
  | _, _ => none

/-- `getRectFromTopLeft`. -/
def getRectFromTopLeft (topLeftAnchor : CanvasAnchor)
    (getRect : CanvasAnchor → Option Rect) (size : Option Size) : Option Rect :=
  match getRect topLeftAnchor with
  | none => none
  | some startRect =>
    match size with
    | none => some startRect
    | some size => some (getRectFromPosSize ⟨startRect.x, startRect.y⟩ size)

/-- `getRectFromBottomRight`. -/
def getRectFromBottomRight (bottomRightAnchor : CanvasAnchor)
    (getRect : CanvasAnchor → Option Rect) (size : Option Size) : Option Rect :=
  match getRect bottomRightAnchor with
  | none => none
  | some endRect =>
    match size with
    | none => some endRect
    | some size =>
      some ⟨endRect.x + endRect.width - size.width,
            endRect.y + endRect.height - size.height, size.width, size.height⟩

/-- `getRectFromImageRange`: dispatch over which anchors are present. -/
def getRectFromImageRange (imageRange : FixedImageRange)
    (getRect : CanvasAnchor → Option Rect) (params : ScaleParams) : Option Rect :=
  match getCanvasTopLeftAnchor imageRange.tl params,
      getCanvasBottomRightAnchor imageRange.br params with
  | some topLeftAnchor, some bottomRightAnchor =>
    getRectFromTopLeftBottomRight topLeftAnchor bottomRightAnchor getRect
  | some topLeftAnchor, none =>
    getRectFromTopLeft topLeftAnchor getRect (getImagePixelSize imageRange params)
  | none, some bottomRightAnchor =>
    getRectFromBottomRight bottomRightAnchor getRect (getImagePixelSize imageRange params)
  | none, none => none

/-- `getRectFromCellRangeRef`. -/
def getRectFromCellRangeRef (cellRangeRef : String)
    (getRect : CellNumbers → Option Rect) : Option Rect :=
  match getCellRangeNumbersFromCellRangeRef cellRangeRef with
  | none => none
  | some rangeNumbers =>
    match getRect rangeNumbers.start, getRect rangeNumbers.«end» with
    | some startRect, some endRect =>
      some (getRectFromEdges startRect.x startRect.y
        (endRect.x + endRect.width) (endRect.y + endRect.height))
    | _, _ => none

/-- The `getRectFromAnchor` closure of `createCanvasRangeRectResolver`:
look the anchor up as cell numbers, then add the pixel offsets. -/
def getRectFromAnchorOf (getRectFromCellNumbers : CellNumbers → Option Rect) :
    CanvasAnchor → Option Rect := fun anchor =>
  (getRectFromCellNumbers ⟨anchor.col, anchor.row⟩).map fun rect =>
    { rect with x := rect.x + anchor.pixelOffsetX, y := rect.y + anchor.pixelOffsetY }

/-- The `getRectFromRange` closure of `createCanvasRangeRectResolver`:
textual ranges via the reference parser, image ranges via anchors. -/
def getRectFromRange (getRectFromCellNumbers : CellNumbers → Option Rect)
    (params : ScaleParams) : String ⊕ FixedImageRange → Option Rect := fun range =>
  match range with
  | .inl cellRangeRef => getRectFromCellRangeRef cellRangeRef getRectFromCellNumbers
  | .inr imageRange =>
    getRectFromImageRange imageRange (getRectFromAnchorOf getRectFromCellNumbers) params

/-! ## Worksheet model and layout (src/unnamed/part_008) -/

/-- An `exceljs` image entry `{base64?, buffer?}`. -/
structure Image where
  base64 : Option String
  buffer : Option (List ℕ)
deriving DecidableEq

structure Workbook where
  getImage : ℤ → Option Image

/-- A `worksheet.getImages()` entry: an id and either a textual range
or a `FixedImageRange`. -/
structure WorksheetImage where
  imageId : ℤ
  range : String ⊕ FixedImageRange

structure SheetColumn where
  number : ℕ
  width : Option ℚ
  hidden : Option Bool
  collapsed : Option Bool
deriving DecidableEq

structure SheetRow where
  number : ℕ
  height : Option ℚ
  hidden : Option Bool
  collapsed : Option Bool
  getCell : ℕ → Cell

structure WorksheetProperties where
  defaultColWidth : Option ℚ
  defaultRowHeight : ℚ

/-- The `exceljs` `Worksheet` capabilities the renderer reads.
`getRows = none` models `worksheet.getRows(1, rowCount)` returning
`undefined`. -/
structure Worksheet where
  columnCount : ℕ
  rowCount : ℕ
  properties : WorksheetProperties
  getColumn : ℕ → SheetColumn
  getRows : Option (List SheetRow)
  merges : List String
  getImages : List WorksheetImage
  workbook : Workbook

/-- `isVisible`: neither `hidden === true` nor `collapsed === true`. -/
def isVisibleFlags (hidden collapsed : Option Bool) : Bool :=
  ! (hidden = some true || collapsed = some true)

def SheetColumn.isVisible (column : SheetColumn) : Bool :=
  isVisibleFlags column.hidden column.collapsed

def SheetRow.isVisible (row : SheetRow) : Bool :=
  isVisibleFlags row.hidden row.collapsed

structure CanvasColumn where
  number : ℕ
  x : ℚ
  width : ℚ
deriving DecidableEq

structure CanvasRow where
  number : ℕ
  y : ℚ
  height : ℚ
  getCell : CanvasColumn → Cell

/-- `getNextX`: the running offset after the previous band. -/
def getNextX (canvasColumn : Option CanvasColumn) : ℚ :=
  match canvasColumn with
  | none => 0
  | some canvasColumn => canvasColumn.x + canvasColumn.width

/-- `getNextY`. -/
def getNextY (canvasRow : Option CanvasRow) : ℚ :=
  match canvasRow with
  | none => 0
  | some canvasRow => canvasRow.y + canvasRow.height

/-- The source list `columns` of `getCanvasColumns`:
`[0..columnCount-1].map(i => worksheet.getColumn(i + 1))`. -/
def worksheetColumns (worksheet : Worksheet) : List SheetColumn :=
  (List.range worksheet.columnCount).map fun index => worksheet.getColumn (index + 1)

/-- `getCanvasColumns`: the visible-column reduce with cumulative `x`. -/
def getCanvasColumns (worksheet : Worksheet) (params : DrawingParams) : List CanvasColumn :=
  (worksheetColumns worksheet).foldl
    (fun result column =>
      if column.isVisible then
        result ++ [⟨column.number, getNextX result.getLast?,
          getPixelWidth
            (column.width.getD
              (worksheet.properties.defaultColWidth.getD params.fallbackColCharUnitWidth))
            params.scale⟩]
      else
        result)
    []

/-- `getCanvasRows`: `none` when the row fetch yields nothing, else the
visible-row reduce with cumulative `y`. -/
def getCanvasRows (worksheet : Worksheet) (params : DrawingParams) :
    Option (List CanvasRow) :=
  worksheet.getRows.map fun rows =>
    rows.foldl
      (fun result row =>
        if row.isVisible then
          result ++ [⟨row.number, getNextY result.getLast?,
            getPixelHeight (row.height.getD worksheet.properties.defaultRowHeight)
              params.scale,
            fun column => row.getCell column.number⟩]
        else
          result)
      []

/-- Modelled from the spec: `canvasSize = (Σ widths, Σ heights)`; the
summation helper `@/utils/sum` referenced by `getCanvasSize` is not
among the provided sources, so summation is `List.sum`. -/
def getCanvasSize (columns : List CanvasColumn) (rows : List CanvasRow) : Size :=
  ⟨(columns.map CanvasColumn.width).sum, (rows.map CanvasRow.height).sum⟩

/-! ## Merged-cell resolver (src/unnamed/part_008) -/

/-- The local `range(a, b)` helper:
`Array.from({length: b - a + 1}, (_, i) => a + i)`. -/
def rangeClosed (a b : ℕ) : List ℕ :=
  (List.range (b - a + 1)).map (a + ·)

/-- `Map.prototype.set` on a map modelled as a lookup function. -/
def mapSet {α : Type} (m : ℕ → Option α) (key : ℕ) (value : α) : ℕ → Option α :=
  fun query => if query = key then some value else m query

structure MergedCellResolver where
  getCellRangeNumbers : CellNumbers → Option CellRangeNumbers
  cellRangeNumbersList : List CellRangeNumbers

/-- The state of `createMergedCellResolver`'s loop: `mergeIdMap`
(column ↦ row ↦ merge id) and `rangeNumbersMap` in insertion order. -/
def mergedCellMaps (merges : List String) :
    (ℕ → Option (ℕ → Option ℕ)) × List (ℕ × CellRangeNumbers) :=
  merges.enum.foldl
    (fun maps entry =>
      match getCellRangeNumbersFromCellRangeRef entry.2 with
      | none => maps
      | some cellRangeNumbers =>
        ((rangeClosed cellRangeNumbers.start.col cellRangeNumbers.«end».col).foldl
          (fun idMap col =>
            mapSet idMap col
              ((rangeClosed cellRangeNumbers.start.row cellRangeNumbers.«end».row).foldl
                (fun colMap row => mapSet colMap row entry.1)
                (fun _ => none)))
          maps.1,
         maps.2 ++ [(entry.1, cellRangeNumbers)]))
    ((fun _ => none), [])

/-- `createMergedCellResolver`: each merged range gets a dense merge id;
`getCellRangeNumbers` resolves a cell through `mergeIdMap` then
`rangeNumbersMap`; iteration order of the list follows `model.merges`. -/
def createMergedCellResolver (worksheet : Worksheet) : MergedCellResolver :=
  { getCellRangeNumbers := fun cellNumbers =>
      match (mergedCellMaps worksheet.merges).1 cellNumbers.col with
      | none => none
      | some rowMap =>
        match rowMap cellNumbers.row with
        | none => none
        | some mergeId =>
          ((mergedCellMaps worksheet.merges).2.find? (fun p => p.1 = mergeId)).map Prod.snd
    cellRangeNumbersList := (mergedCellMaps worksheet.merges).2.map Prod.snd }

/-! ## Cell-rect resolution and draw order (src/unnamed/part_008) -/

structure ColRow where
  column : CanvasColumn
  row : CanvasRow

/-- `createColRowResolver`'s `getColRow`: `Map` lookups by band number. -/
def createColRowResolver (columns : List CanvasColumn) (rows : List CanvasRow) :
    CellNumbers → Option ColRow :=
  let canvasColumnMap :=
    (columns.map (fun column => (column.number, column))).foldl
      (fun m kv => mapSet m kv.1 kv.2) (fun _ => none)
  let canvasRowMap :=
    (rows.map (fun row => (row.number, row))).foldl
      (fun m kv => mapSet m kv.1 kv.2) (fun _ => none)
  fun cellNumbers =>
    match canvasColumnMap cellNumbers.col, canvasRowMap cellNumbers.row with
    | some column, some row => some ⟨column, row⟩
    | _, _ => none

/-- `getCellRectOfSingleCell`. -/
def getCellRectOfSingleCell (getColRow : CellNumbers → Option ColRow)
    (cellNumbers : CellNumbers) : Option Rect :=
  (getColRow cellNumbers).map fun colRow =>
    ⟨colRow.column.x, colRow.row.y, colRow.column.width, colRow.row.height⟩

/-- `getCellRectOfMergedCell`. -/
def getCellRectOfMergedCell (getColRow : CellNumbers → Option ColRow)
    (cellRangeNumbers : CellRangeNumbers) : Option Rect :=
  match getCellRectOfSingleCell getColRow cellRangeNumbers.start,
      getCellRectOfSingleCell getColRow cellRangeNumbers.«end» with
  | some startRect, some endRect =>
    some (getRectFromEdges startRect.x startRect.y
      (endRect.x + endRect.width) (endRect.y + endRect.height))
  | _, _ => none

/-- `iterMergedCells`, as the list of its yields. -/
def iterMergedCells (mergedCellRangeNumbersList : List CellRangeNumbers)
    (getColRow : CellNumbers → Option ColRow)
    (getMergedRect : CellRangeNumbers → Option Rect)
    (params : DrawingParams) : List CanvasCell :=
  mergedCellRangeNumbersList.filterMap fun cellRangeNumbers =>
    match getColRow cellRangeNumbers.start with
    | none => none
    | some colRow =>
      match getMergedRect cellRangeNumbers with
      | none => none
      | some rect => some (getCanvasCell (colRow.row.getCell colRow.column) rect params)

/-- `iterCellsInRowExcludeMerged`, as the list of its yields. -/
def iterCellsInRowExcludeMerged (row : CanvasRow) (columns : List CanvasColumn)
    (params : DrawingParams) : List CanvasCell :=
  columns.filterMap fun column =>
    if (row.getCell column).isMerged then
      none
    else
      some (getCanvasCell (row.getCell column)
        ⟨column.x, row.y, column.width, row.height⟩ params)

/-- `doesCellValueFitDrawArea`: `false` under shrink-to-fit, else the
measured value width must be strictly below the cell width. -/
def doesCellValueFitDrawArea (measure : String → String → ℚ) (cell : CanvasCell) : Bool :=
  if cell.text.alignment.shrinkToFit then
    false
  else
    measure cell.text.font cell.text.value < cell.width

/-- `iterCellsInDrawOrder`, as the list of its yields: the first pass
yields empty-valued cells and collects the rest; the second pass yields
the cells that do not fit and collects the fitting ones, which are
yielded last. -/
def iterCellsInDrawOrder (measure : String → String → ℚ) (cells : List CanvasCell) :
    List CanvasCell :=
  let firstPass := cells.partition fun cell => cell.text.value.length > 0
  let secondPass := firstPass.1.partition fun cell => doesCellValueFitDrawArea measure cell
  firstPass.2 ++ secondPass.2 ++ secondPass.1

/-! ## Images and the draw orchestrator (src/unnamed/part_008) -/

/-- `safeGetImage` (ids modelled as numbers; the string-id decimal
normalisation is identity here). -/
def safeGetImage (workbook : Workbook) (imageId : ℤ) : Option Image :=
  workbook.getImage imageId

inductive CanvasImageData where
  | base64 (data : String)
  | buffer (data : List ℕ)
deriving DecidableEq

/-- `CanvasImage`: a tagged payload and a rect. -/
structure CanvasImage where
  data : CanvasImageData
  x : ℚ
  y : ℚ
  width : ℚ
  height : ℚ
deriving DecidableEq

/-- `getCanvasImage`: base64 preferred over buffer, else `null`. -/
def getCanvasImage (rect : Rect) (image : Image) : Option CanvasImage :=
  match image.base64 with
  | some data => some ⟨.base64 data, rect.x, rect.y, rect.width, rect.height⟩
  | none =>
    match image.buffer with
    | some data => some ⟨.buffer data, rect.x, rect.y, rect.width, rect.height⟩
    | none => none

/-- `getCanvasImages`: resolve each image range to a rect and its bytes,
skipping silently on any failure. -/
def getCanvasImages (worksheet : Worksheet)
    (getRect : String ⊕ FixedImageRange → Option Rect) : List CanvasImage :=
  worksheet.getImages.filterMap fun worksheetImage =>
    match getRect worksheetImage.range with
    | none => none
    | some rect =>
      match safeGetImage worksheet.workbook worksheetImage.imageId with
      | none => none
      | some data => getCanvasImage rect data

structure SheetDataProvider where
  canvasSize : Size
  getCellRect : CellNumbers → Option Rect
  iterCells : List CanvasCell

/-- `createSheetDataProvider`: `none` when the worksheet yields no rows;
otherwise layout, merge index, rect resolver and the full cell iteration
(merged cells first, then per visible row, each in draw order). -/
def createSheetDataProvider (measure : String → String → ℚ) (worksheet : Worksheet)
    (params : DrawingParams) : Option SheetDataProvider :=
  match getCanvasRows worksheet params with
  | none => none
  | some canvasRows =>
    let canvasColumns := getCanvasColumns worksheet params
    let resolver := createMergedCellResolver worksheet
    let getColRow := createColRowResolver canvasColumns canvasRows
    some
      { canvasSize := getCanvasSize canvasColumns canvasRows
        getCellRect := fun cellNumbers =>
          match resolver.getCellRangeNumbers cellNumbers with
          | none => getCellRectOfSingleCell getColRow cellNumbers
          | some cellRangeNumbers => getCellRectOfMergedCell getColRow cellRangeNumbers
        iterCells :=
          iterCellsInDrawOrder measure
            (iterMergedCells resolver.cellRangeNumbersList getColRow
              (getCellRectOfMergedCell getColRow) params) ++
          (canvasRows.map fun row =>
            iterCellsInDrawOrder measure
              (iterCellsInRowExcludeMerged row canvasColumns params)).flatten }

/-- The observable effect of one drawing call on the raster surface. -/
inductive DrawOp where
  | fillRect (color : String) (x y width height : ℚ)
  | cell (cell : CanvasCell) (pixelPadding : ℚ)
  | image (image : CanvasImage)
deriving DecidableEq

/-- The raster surface: presentation size plus the trace of drawing
operations applied to it. -/
structure RasterCanvas where
  width : ℚ
  height : ℚ
  ops : List DrawOp
deriving DecidableEq

/-- `drawSheet`: a no-op when the data provider is `null`; otherwise
size the surface, fill the background, draw every cell in iteration
order, then the resolved images. -/
def drawSheet (measure : String → String → ℚ) (canvas : RasterCanvas)
    (worksheet : Worksheet) (params : DrawingParams) : RasterCanvas :=
  match createSheetDataProvider measure worksheet params with
  | none => canvas
  | some dataProvider =>
    { width := dataProvider.canvasSize.width
      height := dataProvider.canvasSize.height
      ops := canvas.ops ++
        [DrawOp.fillRect params.backgroundColor 0 0
          dataProvider.canvasSize.width dataProvider.canvasSize.height] ++
        dataProvider.iterCells.map (fun cell => DrawOp.cell cell params.cellPixelPadding) ++
        (getCanvasImages worksheet
          (getRectFromRange dataProvider.getCellRect params.scale)).map DrawOp.image }

/-! ## Options and drawing parameters (src/unnamed/part_008) -/

structure ExcelCanvasOptions where
  characterUnit : ℚ
  dpi : ℚ
  borderFallbackColor : String
  borderFallbackStyle : CanvasBorderStyle
  borderPointWidthMap : BorderStyle → ℚ
  borderPointSegmentsMap : BorderStyle → Option (List ℚ)
  textFallbackColor : String
  textFallbackFontFamilyName : String
  textFallbackFontSize : ℚ
  textFallbackAlignmentHorizontal : String
  textFallbackAlignmentVertical : String
  textFallbackAlignmentWrapText : Bool
  textFallbackAlignmentShrinkToFit : Bool
  textFallbackAlignmentIndent : ℚ
  textFallbackAlignmentTextDirection : String
  textFallbackAlignmentTextRotation : TextRotation
  textLineHeight : ℚ
  backgroundColor : String
  fallbackColCharUnitWidth : ℚ
  cellPointPadding : ℚ

/-- `defaultOptions`. -/
def defaultOptions : ExcelCanvasOptions where
  characterUnit := 5.85
  dpi := 192
  borderFallbackColor := "lightgray"
  borderFallbackStyle := none
  borderPointWidthMap := fun style =>
    match style with
    | .hair => 0.2
    | .thin => 0.8
    | .double => 0.5
    | .dotted => 0.8
    | .dashed => 0.8
    | .dashDot => 0.8
    | .dashDotDot => 0.8
    | .medium => 1.5
    | .mediumDashDot => 1.5
    | .mediumDashDotDot => 1.5
    | .mediumDashed => 1.5
    | .slantDashDot => 1.5
    | .thick => 2
  borderPointSegmentsMap := fun style =>
    match style with
    | .dashDot => some [4, 2, 2, 2]
    | .dashDotDot => some [4, 2, 2, 2, 2, 2]
    | .dashed => some [4]
    | .dotted => some [2]
    | .mediumDashDot => some [4, 2, 2, 2]
    | .mediumDashDotDot => some [4, 2, 2, 2, 2, 2]
    | .mediumDashed => some [4]
    | .slantDashDot => some [4, 2, 2, 2]
    | _ => none
  textFallbackColor := "black"
  textFallbackFontFamilyName := "Arial"
  textFallbackFontSize := 10
  textFallbackAlignmentHorizontal := "left"
  textFallbackAlignmentVertical := "bottom"
  textFallbackAlignmentWrapText := false
  textFallbackAlignmentShrinkToFit := false
  textFallbackAlignmentIndent := 0
  textFallbackAlignmentTextDirection := "inherit"
  textFallbackAlignmentTextRotation := .deg 0
  textLineHeight := 1.2
  backgroundColor := "white"
  fallbackColCharUnitWidth := 13
  cellPointPadding := 2

/-- `mapBorderStyleRecord`: apply a mapper over the partial per-style
record, producing a total record. -/
def mapBorderStyleRecord {V R : Type} (record : BorderStyle → Option V)
    (mapper : Option V → R) : BorderStyle → R :=
  fun style => mapper (record style)

/-- `getDrawingParams`: pre-scale every point-valued option by
`pixelPerPoint = dpi / 72`. -/
def getDrawingParams (options : ExcelCanvasOptions) : DrawingParams :=
  { scale := ⟨options.characterUnit, options.dpi / pointsPerInch⟩
    border :=
      { fallbackColor := options.borderFallbackColor
        fallbackStyle := options.borderFallbackStyle
        pixelWidthMap := mapBorderStyleRecord (fun style => some (options.borderPointWidthMap style))
          (fun pointWidth => pointWidth.getD 0 * (options.dpi / pointsPerInch))
        pixelSegmentsMap := mapBorderStyleRecord options.borderPointSegmentsMap
          (fun pointSegments =>
            ((pointSegments.map fun segs =>
              segs.map fun pointSegment => pointSegment * (options.dpi / pointsPerInch))).getD []) }
    text :=
      { fallbackColor := options.textFallbackColor
        fallbackFont := ⟨options.textFallbackFontFamilyName, options.textFallbackFontSize⟩
        fallbackAlignment :=
          ⟨options.textFallbackAlignmentHorizontal, options.textFallbackAlignmentVertical,
           options.textFallbackAlignmentWrapText, options.textFallbackAlignmentShrinkToFit,
           options.textFallbackAlignmentIndent, options.textFallbackAlignmentTextDirection,
           options.textFallbackAlignmentTextRotation⟩
        lineHeight := options.textLineHeight }
    backgroundColor := options.backgroundColor
    fallbackColCharUnitWidth := options.fallbackColCharUnitWidth
    cellPixelPadding := options.cellPointPadding * (options.dpi / pointsPerInch) }

/-- The drawing parameters of a draw with all options at their defaults. -/
def defaultDrawingParams : DrawingParams := getDrawingParams defaultOptions

/-! ## Concrete test fixtures for witnesses and counterexamples -/

/-- A measuring surface whose measured width is the text length. -/
def lengthMeasure : String → String → ℚ := fun _ text => (text.length : ℚ)

def testCanvasBorder : CanvasBorder := ⟨"lightgray", none, 0, []⟩

def testAlignment : CanvasAlignment := ⟨"left", "bottom", false, false, 0, "inherit", .deg 0⟩

/-- A canvas cell with the given text value and width. -/
def testCanvasCell (value : String) (width : ℚ) : CanvasCell :=
  ⟨0, 0, width, 10, ⟨"white"⟩,
   ⟨testCanvasBorder, testCanvasBorder, testCanvasBorder, testCanvasBorder⟩,
   ⟨"black", "10px Arial", testAlignment, 12, value⟩⟩

def emptyTestCell : Cell := ⟨some "", false, none, none, none, none⟩

def testWorkbook : Workbook := ⟨fun _ => none⟩

def testRasterCanvas : RasterCanvas := ⟨123, 45, []⟩

/-! ## C1 and C10: the overflow-aware draw order -/

/-- C10: the draw-order iterator yields a permutation of its input:
no canvas cell is dropped or duplicated, whichever bucket it lands in. -/
theorem iterCellsInDrawOrder_perm (measure : String → String → ℚ)
    (cells : List CanvasCell) : (iterCellsInDrawOrder measure cells).Perm cells := by
  unfold iterCellsInDrawOrder
  simp only [List.partition_eq_filter_filter]
  rw [List.append_assoc]
  set p := fun cell : CanvasCell => decide (cell.text.value.length > 0) with hp
  set q := fun cell : CanvasCell => doesCellValueFitDrawArea measure cell with hq
  have h1 : (((cells.filter p).filter (not ∘ q)) ++ ((cells.filter p).filter q)).Perm
      (cells.filter p) := by
    refine List.Perm.trans List.perm_append_comm ?_
    have := List.filter_append_perm q (cells.filter p)
    simpa [Function.comp_def] using this
  have h2 : ((cells.filter (not ∘ p)) ++ (cells.filter p)).Perm cells := by
    refine List.Perm.trans List.perm_append_comm ?_
    have := List.filter_append_perm p cells
    simpa [Function.comp_def] using this
  exact (List.Perm.append_left _ h1).trans h2

/-- C1 counterexample: with one fitting and one overflowing non-empty
cell, the claim predicts the fitting cell first and the overflowing one
last, but the iterator emits the overflowing cell before the fitting
one. -/
theorem iterCellsInDrawOrder_claim_counterexample :
    iterCellsInDrawOrder lengthMeasure [testCanvasCell "a" 5, testCanvasCell "bbbbbb" 5] =
      [testCanvasCell "bbbbbb" 5, testCanvasCell "a" 5] ∧
    iterCellsInDrawOrder lengthMeasure [testCanvasCell "a" 5, testCanvasCell "bbbbbb" 5] ≠
      [testCanvasCell "a" 5, testCanvasCell "bbbbbb" 5] := by
  exact ⟨by decide, by decide⟩

/-- C1 (amended): the iterator emits all empty-valued cells first, then
all non-empty cells whose value does not fit the drawing area, and the
non-empty cells whose value fits (`measureTextWidth(font, value) <
width` and `shrinkToFit = false`) last, each bucket in input order. -/
theorem iterCellsInDrawOrder_empty_overflow_fit (measure : String → String → ℚ)
    (cells : List CanvasCell) :
    iterCellsInDrawOrder measure cells =
      cells.filter (fun cell => !(cell.text.value.length > 0)) ++
      cells.filter (fun cell =>
        !doesCellValueFitDrawArea measure cell && cell.text.value.length > 0) ++
      cells.filter (fun cell =>
        doesCellValueFitDrawArea measure cell && cell.text.value.length > 0) := by
  unfold iterCellsInDrawOrder
  simp only [List.partition_eq_filter_filter, List.filter_filter]
  rfl

/-! ## C2: the merged-cell resolver loses ranges that share a column -/

/-- A worksheet whose merge list holds two ranges sharing column `A`. -/
def sharedColumnWorksheet : Worksheet :=
  { columnCount := 1
    rowCount := 4
    properties := ⟨none, 15⟩
    getColumn := fun n => ⟨n, none, none, none⟩
    getRows := some []
    merges := ["A1:A2", "A3:A4"]
    getImages := []
    workbook := testWorkbook }

/-- C2: both merged ranges parse and are retained in the range list, and
cell `(1,1)` lies inside the bounds of the first range `A1:A2`; yet the
resolver returns `none` for it, because processing `A3:A4` replaced
column 1's freshly-built row map wholesale.  Cells of the later range
still resolve. -/
theorem mergedCellResolver_shared_column_lost :
    (createMergedCellResolver sharedColumnWorksheet).cellRangeNumbersList =
      [⟨⟨1, 1⟩, ⟨1, 2⟩⟩, ⟨⟨1, 3⟩, ⟨1, 4⟩⟩] ∧
    (createMergedCellResolver sharedColumnWorksheet).getCellRangeNumbers ⟨1, 1⟩ = none ∧
    (createMergedCellResolver sharedColumnWorksheet).getCellRangeNumbers ⟨1, 2⟩ = none ∧
    (createMergedCellResolver sharedColumnWorksheet).getCellRangeNumbers ⟨1, 3⟩ =
      some ⟨⟨1, 3⟩, ⟨1, 4⟩⟩ := by
  exact ⟨by decide, by decide, by decide, by decide⟩

/-! ## C9: a worksheet without rows makes the draw a no-op -/

/-- C9: when the row fetch yields nothing, `drawSheet` leaves the raster
surface entirely unchanged (size and operation trace). -/
theorem drawSheet_noop_without_rows (measure : String → String → ℚ)
    (canvas : RasterCanvas) (worksheet : Worksheet) (params : DrawingParams)
    (h : worksheet.getRows = none) :
    drawSheet measure canvas worksheet params = canvas := by
  unfold drawSheet createSheetDataProvider getCanvasRows
  rw [h]
  rfl

/-- A worksheet whose row fetch yields nothing. -/
def noRowsWorksheet : Worksheet :=
  { columnCount := 2
    rowCount := 0
    properties := ⟨none, 15⟩
    getColumn := fun n => ⟨n, some 10, none, none⟩
    getRows := none
    merges := []
    getImages := []
    workbook := testWorkbook }

/-- Witness for C9 at a concrete worksheet and surface. -/
theorem drawSheet_noop_without_rows_witness :
    noRowsWorksheet.getRows = none ∧
    drawSheet lengthMeasure testRasterCanvas noRowsWorksheet defaultDrawingParams =
      testRasterCanvas :=
  ⟨rfl, drawSheet_noop_without_rows lengthMeasure testRasterCanvas noRowsWorksheet
    defaultDrawingParams rfl⟩

/-! ## C5: raster size is the sum of the visible bands -/

/-- The pixel width a visible source column contributes. -/
def columnPixelWidth (worksheet : Worksheet) (params : DrawingParams)
    (column : SheetColumn) : ℚ :=
  getPixelWidth
    (column.width.getD
      (worksheet.properties.defaultColWidth.getD params.fallbackColCharUnitWidth))
    params.scale

/-- The pixel height a visible source row contributes. -/
def rowPixelHeight (worksheet : Worksheet) (params : DrawingParams) (row : SheetRow) : ℚ :=
  getPixelHeight (row.height.getD worksheet.properties.defaultRowHeight) params.scale

theorem getCanvasColumns_map (worksheet : Worksheet) (params : DrawingParams) :
    (getCanvasColumns worksheet params).map (fun c => (c.number, c.width)) =
      ((worksheetColumns worksheet).filter SheetColumn.isVisible).map
        (fun column => (column.number, columnPixelWidth worksheet params column)) := by
  unfold getCanvasColumns
  have aux : ∀ (l : List SheetColumn) (acc : List CanvasColumn),
      ((l.foldl
        (fun result column =>
          if column.isVisible then
            result ++ [⟨column.number, getNextX result.getLast?,
              getPixelWidth
                (column.width.getD
                  (worksheet.properties.defaultColWidth.getD params.fallbackColCharUnitWidth))
                params.scale⟩]
          else
            result)
        acc).map fun c => (c.number, c.width)) =
      acc.map (fun c => (c.number, c.width)) ++
        (l.filter SheetColumn.isVisible).map
          (fun column => (column.number, columnPixelWidth worksheet params column)) := by
    intro l
    induction l with
    | nil => intro acc; simp
    | cons col rest ih =>
      intro acc
      rw [List.foldl_cons, List.filter_cons]
      by_cases hv : col.isVisible
      · simp only [hv, if_true, ih, List.map_append, List.map_cons]
        simp [columnPixelWidth]
      · simp only [hv, if_false, ih]
        simp
  simpa using aux (worksheetColumns worksheet) []

theorem getCanvasRows_map (worksheet : Worksheet) (params : DrawingParams)
    (rows : List SheetRow) (h : worksheet.getRows = some rows) :
    ∃ canvasRows, getCanvasRows worksheet params = some canvasRows ∧
      canvasRows.map (fun r => (r.number, r.height)) =
        (rows.filter SheetRow.isVisible).map
          (fun row => (row.number, rowPixelHeight worksheet params row)) := by
  refine ⟨_, by unfold getCanvasRows; rw [h]; rfl, ?_⟩
  have aux : ∀ (l : List SheetRow) (acc : List CanvasRow),
      ((l.foldl
        (fun result row =>
          if row.isVisible then
            result ++ [⟨row.number, getNextY result.getLast?,
              getPixelHeight (row.height.getD worksheet.properties.defaultRowHeight)
                params.scale,
              fun column => row.getCell column.number⟩]
          else
            result)
        acc).map fun r => (r.number, r.height)) =
      acc.map (fun r => (r.number, r.height)) ++
        (l.filter SheetRow.isVisible).map
          (fun row => (row.number, rowPixelHeight worksheet params row)) := by
    intro l
    induction l with
    | nil => intro acc; simp
    | cons row rest ih =>
      intro acc
      rw [List.foldl_cons, List.filter_cons]
      by_cases hv : row.isVisible
      · simp only [hv, if_true, ih, List.map_append, List.map_cons]
        simp [rowPixelHeight]
      · simp only [hv, if_false, ih]
        simp
  simpa using aux rows []

/-- C5: with rows available, the raster surface is sized to the sum of
the pixel widths of the visible columns and the sum of the pixel heights
of the visible rows (visible iff neither `hidden === true` nor
`collapsed === true`), and the output bands list exactly the visible
source bands, so hidden or collapsed bands never appear and contribute
nothing. -/
theorem drawSheet_size_visible_sums (measure : String → String → ℚ)
    (canvas : RasterCanvas) (worksheet : Worksheet) (params : DrawingParams)
    (rows : List SheetRow) (h : worksheet.getRows = some rows) :
    (drawSheet measure canvas worksheet params).width =
      (((worksheetColumns worksheet).filter SheetColumn.isVisible).map
        (columnPixelWidth worksheet params)).sum ∧
    (drawSheet measure canvas worksheet params).height =
      ((rows.filter SheetRow.isVisible).map (rowPixelHeight worksheet params)).sum ∧
    (getCanvasColumns worksheet params).map CanvasColumn.number =
      ((worksheetColumns worksheet).filter SheetColumn.isVisible).map SheetColumn.number ∧
    ∃ canvasRows, getCanvasRows worksheet params = some canvasRows ∧
      canvasRows.map CanvasRow.number =
        (rows.filter SheetRow.isVisible).map SheetRow.number := by
  obtain ⟨canvasRows, hcr, hcrmap⟩ := getCanvasRows_map worksheet params rows h
  have hwidths : ((getCanvasColumns worksheet params).map CanvasColumn.width).sum =
      (((worksheetColumns worksheet).filter SheetColumn.isVisible).map
        (columnPixelWidth worksheet params)).sum := by
    have := congrArg (fun l => (l.map Prod.snd).sum) (getCanvasColumns_map worksheet params)
    simpa [List.map_map, Function.comp_def] using this
  have hheights : ((canvasRows.map CanvasRow.height).sum) =
      ((rows.filter SheetRow.isVisible).map (rowPixelHeight worksheet params)).sum := by
    have := congrArg (fun l => (l.map Prod.snd).sum) hcrmap
    simpa [List.map_map, Function.comp_def] using this
  have hnums : (getCanvasColumns worksheet params).map CanvasColumn.number =
      ((worksheetColumns worksheet).filter SheetColumn.isVisible).map SheetColumn.number := by
    have := congrArg (fun l => l.map Prod.fst) (getCanvasColumns_map worksheet params)
    simpa [List.map_map, Function.comp_def] using this
  have hrnums : canvasRows.map CanvasRow.number =
      (rows.filter SheetRow.isVisible).map SheetRow.number := by
    have := congrArg (fun l => l.map Prod.fst) hcrmap
    simpa [List.map_map, Function.comp_def] using this
  refine ⟨?_, ?_, hnums, canvasRows, hcr, hrnums⟩ <;>
    · unfold drawSheet createSheetDataProvider
      rw [hcr]
      dsimp only
      unfold getCanvasSize
      first
        | exact hwidths
        | exact hheights

/-- A worksheet with a hidden middle column and a collapsed second row. -/
def bandsWorksheet : Worksheet :=
  { columnCount := 3
    rowCount := 2
    properties := ⟨some 10, 15⟩
    getColumn := fun n =>
      if n = 2 then ⟨n, some 8, some true, none⟩ else ⟨n, some 8, none, none⟩
    getRows := some
      [⟨1, some 20, none, none, fun _ => emptyTestCell⟩,
       ⟨2, none, none, some true, fun _ => emptyTestCell⟩]
    merges := []
    getImages := []
    workbook := testWorkbook }

/-- Witness for C5 at a concrete worksheet with hidden/collapsed bands. -/
theorem drawSheet_size_visible_sums_witness :
    bandsWorksheet.getRows = some
      [⟨1, some 20, none, none, fun _ => emptyTestCell⟩,
       ⟨2, none, none, some true, fun _ => emptyTestCell⟩] ∧
    (drawSheet lengthMeasure testRasterCanvas bandsWorksheet defaultDrawingParams).width =
      (((worksheetColumns bandsWorksheet).filter SheetColumn.isVisible).map
        (columnPixelWidth bandsWorksheet defaultDrawingParams)).sum :=
  ⟨rfl,
    (drawSheet_size_visible_sums lengthMeasure testRasterCanvas bandsWorksheet
      defaultDrawingParams
      [⟨1, some 20, none, none, fun _ => emptyTestCell⟩,
       ⟨2, none, none, some true, fun _ => emptyTestCell⟩] rfl).1⟩

/-! ## C8: top-left anchored image with an `ext` size -/

/-- The image range of scenario S6:
`tl = (col:1, row:1, colOff:0, rowOff:0)` with `ext = 96 × 96`. -/
def s6ImageRange : FixedImageRange :=
  { tl := some ⟨some 1, some 1, none, none, some 0, some 0⟩
    br := none
    ext := some ⟨some 96, some 96⟩ }

/-- C8: a top-left anchor is the bottom-right conversion with `col` and
`row` incremented by 1; anchor EMU offsets convert at
`emu / 12700 * pixelPerPoint`; and for S6 at default options
(`dpi = 192`), the image rect sits at the top-left of the cell numbered
`(2,2)` with size `(192, 192)` pixels. -/
theorem topLeft_ext_image_rect :
    (∀ (anchor : Option Anchor) (params : ScaleParams) (ca : CanvasAnchor),
      getCanvasTopLeftAnchor anchor params = some ca →
      ∃ cb, getCanvasBottomRightAnchor anchor params = some cb ∧
        ca.col = cb.col + 1 ∧ ca.row = cb.row + 1 ∧
        ca.pixelOffsetX = cb.pixelOffsetX ∧ ca.pixelOffsetY = cb.pixelOffsetY) ∧
    (∀ (anchor : Anchor) (params : ScaleParams) (cb : CanvasAnchor),
      getCanvasBottomRightAnchor (some anchor) params = some cb →
      cb.pixelOffsetX = anchor.nativeColOff.getD 0 / emuPerPoint * params.pixelPerPoint ∧
      cb.pixelOffsetY = anchor.nativeRowOff.getD 0 / emuPerPoint * params.pixelPerPoint) ∧
    (∀ (getRectFromCellNumbers : CellNumbers → Option Rect) (r : Rect),
      getRectFromCellNumbers ⟨2, 2⟩ = some r →
      getRectFromImageRange s6ImageRange (getRectFromAnchorOf getRectFromCellNumbers)
        defaultDrawingParams.scale = some ⟨r.x, r.y, 192, 192⟩) := by
  refine ⟨?_, ?_, ?_⟩
  · intro anchor params ca h
    unfold getCanvasTopLeftAnchor at h
    rcases hb : getCanvasBottomRightAnchor anchor params with _ | cb <;> rw [hb] at h
    · exact absurd h (by simp)
    · have hca : ca = { cb with col := cb.col + 1, row := cb.row + 1 } :=
        (Option.some.inj (by simpa using h)).symm
      subst hca
      exact ⟨cb, rfl, rfl, rfl, rfl, rfl⟩
  · intro anchor params cb h
    unfold getCanvasBottomRightAnchor at h
    dsimp only at h
    rcases hc : anchor.nativeCol.or anchor.col with _ | colIndex <;> rw [hc] at h
    · exact absurd h (by simp)
    rcases hr : anchor.nativeRow.or anchor.row with _ | rowIndex <;> rw [hr] at h
    · exact absurd h (by simp)
    have hcb : cb = ⟨colIndex, rowIndex,
        anchor.nativeColOff.getD 0 / emuPerPoint * params.pixelPerPoint,
        anchor.nativeRowOff.getD 0 / emuPerPoint * params.pixelPerPoint⟩ :=
      (Option.some.inj h).symm
    subst hcb
    exact ⟨rfl, rfl⟩
  · intro g r hg
    have hscale : defaultDrawingParams.scale.pixelPerPoint = 8 / 3 := by
      unfold defaultDrawingParams getDrawingParams defaultOptions pointsPerInch
      norm_num
    unfold getRectFromImageRange s6ImageRange getCanvasTopLeftAnchor
      getCanvasBottomRightAnchor getImagePixelSize getRectFromTopLeft getRectFromAnchorOf
    rw [hscale]
    simp only [Option.or, Option.getD, Option.map]
    rw [hg]
    unfold getRectFromPosSize pointsPerInch imageRangeExtDpi emuPerPoint
    norm_num

/-- A concrete resolver putting cell `(2,2)` at `(10, 20)`. -/
def s6Resolver : CellNumbers → Option Rect := fun cellNumbers =>
  if cellNumbers = ⟨2, 2⟩ then some ⟨10, 20, 30, 40⟩ else none

/-- Witness for C8 at the concrete S6 resolver. -/
theorem topLeft_ext_image_rect_witness :
    s6Resolver ⟨2, 2⟩ = some ⟨10, 20, 30, 40⟩ ∧
    getRectFromImageRange s6ImageRange (getRectFromAnchorOf s6Resolver)
      defaultDrawingParams.scale = some ⟨10, 20, 192, 192⟩ :=
  ⟨by decide, topLeft_ext_image_rect.2.2 s6Resolver ⟨10, 20, 30, 40⟩ (by decide)⟩

/-! ## C3: the line-breaking function (src/unnamed/part_008) -/

/-- The JavaScript word-character class `\w = [A-Za-z0-9_]`. -/
def isWordChar (c : Char) : Bool := c.isAlphanum || c = '_'

/-- `line.split(TOKEN_SPLITTER_REGEX)` with
`TOKEN_SPLITTER_REGEX = (?<=\s+|\W)`: since every whitespace character
is itself a non-word character, the zero-width lookbehind matches
exactly after each non-word character, so the line splits there (with no
trailing empty piece). -/
def tokenizeRegex : List Char → List (List Char)
  | [] => []
  | c :: rest =>
    if isWordChar c then
      match tokenizeRegex rest with
      | [] => [[c]]
      | t :: ts => (c :: t) :: ts
    else
      [c] :: tokenizeRegex rest

/-- `line.split("")`: one token per character. -/
def tokenizeChars (cs : List Char) : List (List Char) := cs.map fun c => [c]

/-- The token loop of `getCanvasCellValueLines`: `done` are the
finished entries of `newLines` and `cur` is its mutable last entry;
a recursive character-level break (`recurse`) splices its result into
place of the current (empty) last line. -/
def wrapTokens (measureL : List Char → ℚ) (width : ℚ)
    (recurse : List Char → Option (List (List Char))) :
    List (List Char) → List (List Char) → List Char → Option (List (List Char))
  | [], done, cur => some (done ++ [cur])
  | token :: rest, done, cur =>
    if measureL (cur ++ token) < width then
      wrapTokens measureL width recurse rest done (cur ++ token)
    else if cur = [] then
      match recurse (cur ++ token) with
      | none => none
      | some subLines =>
        wrapTokens measureL width recurse rest (done ++ subLines.dropLast)
          (subLines.getLastD [])
    else
      wrapTokens measureL width recurse rest (done ++ [cur]) token

/-- The wrapping branch of `getCanvasCellValueLines`, with an explicit
recursion-depth budget `fuel` for the splitter-`""` self-call (the
source recursion is unbounded; `none` models an exhausted budget). -/
def wrapValue (measure : String → String → ℚ) (font : String) (width : ℚ) :
    ℕ → Bool → List Char → Option (List (List Char))
  | 0, _, _ => none
  | fuel + 1, charMode, value =>
    ((splitOnChar '\n' value).mapM fun line =>
      wrapTokens (fun cs => measure font (String.mk cs)) width
        (wrapValue measure font width fuel true)
        (if charMode then tokenizeChars line else tokenizeRegex line) [] []).map
      List.flatten

/-- `getCanvasCellValueLines`: hard lines verbatim without `wrapText`,
else greedy token wrapping with character-level breaking, under the
recursion budget `fuel`.  A result of `none` for every budget means the
source function never terminates on that input. -/
def getCanvasCellValueLines (measure : String → String → ℚ) (fuel : ℕ) (value : String)
    (wrapText : Bool) (font : String) (width : ℚ) : Option (List String) :=
  if !wrapText then
    some ((splitOnChar '\n' value.data).map fun cs => String.mk cs)
  else
    (wrapValue measure font width fuel false value.data).map (List.map String.mk)

/-- C3: on a single-character value that measures at least the available
width (here the measuring surface reports the text length and the width
is 1), the wrapping recursion calls itself with unchanged arguments, so
every recursion budget is exhausted: the source function does not
terminate on this input, contrary to the claim. -/
theorem valueLines_diverge_on_wide_char :
    ∀ fuel : ℕ, getCanvasCellValueLines lengthMeasure fuel "a" true "10px Arial" 1 = none := by
  have aux : ∀ (fuel : ℕ) (charMode : Bool),
      wrapValue lengthMeasure "10px Arial" 1 fuel charMode ['a'] = none := by
    intro fuel
    induction fuel with
    | zero => intro charMode; rfl
    | succ n ih =>
      intro charMode
      have hsplit : splitOnChar '\n' ['a'] = [['a']] := by decide
      have htok : (if charMode then tokenizeChars ['a'] else tokenizeRegex ['a']) = [['a']] := by
        cases charMode <;> decide
      have hmeasure : ¬ (lengthMeasure "10px Arial" (String.mk ([] ++ ['a'])) < (1 : ℚ)) := by
        decide
      rw [wrapValue, hsplit]
      simp only [List.mapM_cons, List.mapM_nil, htok]
      rw [wrapTokens, if_neg hmeasure, if_pos rfl,
        show ([] : List Char) ++ ['a'] = ['a'] from rfl, ih true]
      rfl
  intro fuel
  unfold getCanvasCellValueLines
  rw [if_neg (by decide), show ("a" : String).data = ['a'] from rfl, aux fuel false]
  rfl

end ExcelCanvas
